import Mathlib

/-!
Verification of the brickchat streaming response post-processing pipeline.

The development shallowly embeds the code of `backend/routers/chat.py`
(stream orchestrator `generate_stream`, inline reasoning classifier,
citation collector, persistence content assembly, `send_message` error
handling) and `backend/routers/tts.py` (sentence boundary detector and
the streaming TTS sentence loop).  Text is modelled as `List Char`;
Python strings, `re` searches over the fixed pattern lists, and the
event stream are translated directly from the source.  Case folding for
`re.IGNORECASE` and the whitespace classes are modelled over ASCII,
which covers every character class the source patterns use.
-/

set_option maxRecDepth 10000

/-- Text is modelled as a list of characters (a Python `str`). -/
abbrev Str := List Char

/-- The apostrophe character, used inside some classifier patterns. -/
def apos : Char := '\''

/-- ASCII whitespace, the set stripped by Python `str.strip` and matched
by the regex class backslash-s for the ASCII inputs this code handles:
space, tab, newline, carriage return, vertical tab, form feed. -/
def isWsCh (c : Char) : Bool :=
  c = ' ' || c = '\t' || c = '\n' || c = '\r' || c = '\x0b' || c = '\x0c'

/-- Python `str.strip()`: drop leading and trailing whitespace. -/
def pyStrip (s : Str) : Str :=
  ((s.dropWhile isWsCh).reverse.dropWhile isWsCh).reverse

/-- `startsW pat s` holds when `pat` is an initial segment of `s`
(Python `str.startswith`, regex start anchor). -/
def startsW : Str → Str → Bool
  | [], _ => true
  | _ :: _, [] => false
  | p :: ps, c :: cs => p = c && startsW ps cs

/-- `containsSub pat s` holds when `pat` occurs contiguously in `s`
(Python `pat in s`, unanchored regex search for a literal). -/
def containsSub : Str → Str → Bool
  | pat, [] => startsW pat []
  | pat, s@(_ :: rest) => startsW pat s || containsSub pat rest

/-- Lower-case a string character by character (models `re.IGNORECASE`
comparisons over the ASCII pattern alphabet). -/
def lowerS (s : Str) : Str := s.map Char.toLower

/-- Case-insensitive anchored match of a (lower-case) pattern literal. -/
def startsCI (pat s : Str) : Bool := startsW (lowerS pat) (lowerS s)

/-- Case-insensitive unanchored search for a literal pattern. -/
def containsCI (pat s : Str) : Bool := containsSub (lowerS pat) (lowerS s)

/-- ASCII letter (the class `[A-Z]` under `re.IGNORECASE`). -/
def isAsciiLetter (c : Char) : Bool :=
  ('a' ≤ c && c ≤ 'z') || ('A' ≤ c && c ≤ 'Z')

/-- The literal `I'm happy to` in lower case. -/
def imHappyTo : Str := "i".toList ++ [apos] ++ "m happy to".toList

/-- The literal `Here's what` in lower case. -/
def heresWhat : Str := "here".toList ++ [apos] ++ "s what".toList

/-- The pattern `^\*\*[A-Z]` of `_REAL_CONTENT_PATTERNS` (a bold header;
under `re.IGNORECASE` the class `[A-Z]` also matches lower-case ASCII). -/
def boldCapStart (s : Str) : Bool :=
  match s with
  | '*' :: '*' :: c :: _ => isAsciiLetter c
  | _ => false

/-- `_REAL_CONTENT_REGEX.search` of `backend/routers/chat.py`.  The
pattern list is compiled with `re.IGNORECASE` and without `re.MULTILINE`,
and every alternative is anchored with `^`, so a search succeeds exactly
when the buffer starts with one of the alternatives. -/
def realContentMatch (s : Str) : Bool :=
  startsCI "great question".toList s ||
  startsCI "here are".toList s ||
  startsCI "based on".toList s ||
  startsCI "the key".toList s ||
  startsCI "the main".toList s ||
  startsCI "the primary".toList s ||
  startsCI "the top".toList s ||
  boldCapStart s ||
  startsCI imHappyTo s ||
  startsCI "thank you for".toList s ||
  startsCI "let me share".toList s ||
  startsCI heresWhat s

/-- Character class `[a-zA-Z0-9\-]` of the `Searching ...` pattern. -/
def isSearchWordCh (c : Char) : Bool :=
  isAsciiLetter c || c.isDigit || c = '-'

/-- Match of `Searching [a-zA-Z0-9\-]+\.\.\.` at the head of an already
lower-cased string: the literal `searching `, then a non-empty run of
word characters, then three dots (the dot is not in the word class, so
the regex matches exactly when the dots follow the maximal run). -/
def searchingAt (s : Str) : Bool :=
  if startsW "searching ".toList s then
    let t := s.drop 10
    let r := t.takeWhile isSearchWordCh
    decide (r ≠ []) && startsW "...".toList (t.drop r.length)
  else false

/-- Unanchored search for the `Searching ...` pattern (input pre-lowered). -/
def searchingHit : Str → Bool
  | [] => false
  | s@(_ :: rest) => searchingAt s || searchingHit rest

/-- `_INLINE_REASONING_REGEX.search` of `backend/routers/chat.py`:
unanchored, case-insensitive search for any of the fourteen reasoning
signatures, in source order. -/
def inlineReasoningMatch (s : Str) : Bool :=
  containsCI "mapping query intent".toList s ||
  containsCI "filtering to the highest-value".toList s ||
  searchingHit (lowerS s) ||
  containsCI "structuring selected content".toList s ||
  containsCI "answer synthesis".toList s ||
  containsCI "establishing a working model".toList s ||
  containsCI "decomposing the question".toList s ||
  containsCI "targeted sub-queries".toList s ||
  containsCI "consolidating results".toList s ||
  containsCI "staging key excerpts".toList s ||
  containsCI "for inspection".toList s ||
  containsCI "salient points".toList s ||
  containsCI "for retrieval query".toList s ||
  containsCI "let me pull together".toList s

/-- `delta.split('</think>', 1)`: the text before the first closing
think marker and the text after it (whole string and empty tail when
the marker does not occur). -/
def splitMarker : Str → Str × Str
  | '<' :: '/' :: 't' :: 'h' :: 'i' :: 'n' :: 'k' :: '>' :: rest => ([], rest)
  | c :: rest =>
    let p := splitMarker rest
    (c :: p.1, p.2)
  | [] => ([], [])

/-- `re.sub(r'</?think>', '', s)`: delete every occurrence of the
literal `<think>` or `</think>`, scanning left to right. -/
def stripTags : Str → Str
  | '<' :: 't' :: 'h' :: 'i' :: 'n' :: 'k' :: '>' :: rest => stripTags rest
  | '<' :: '/' :: 't' :: 'h' :: 'i' :: 'n' :: 'k' :: '>' :: rest => stripTags rest
  | c :: rest => c :: stripTags rest
  | [] => []

/-- Decimal rendering of a natural number (Python `str(n)`). -/
def natStr (n : Nat) : Str := Nat.toDigits 10 n

/-- The literal `</think>`. -/
def closeTagL : Str := "</think>".toList

/-- An upstream annotation payload: the `annotation` dict of an
annotation-added event, with its optional `title` and `url` entries. -/
structure Ann where
  title : Option Str
  url : Option Str
deriving DecidableEq

/-- A collected citation, as built by `generate_stream` and by the
non-streaming dedup loop of `send_message`. -/
structure Citation where
  id : Str
  contentIndex : Nat
  title : Option Str
  url : Str
deriving DecidableEq

/-- A raw citation extracted from a non-streaming response object
(`send_message`, lines 642-651): url may be absent. -/
structure RawCitation where
  contentIndex : Nat
  title : Option Str
  url : Option Str
deriving DecidableEq

/-- One upstream stream event, decoded from the runtime type-name
dispatch of `generate_stream`: a reasoning text delta, an output text
delta (with its optional `content_index` attribute), or an
annotation-added event. -/
inductive Chunk where
  | reasoningDelta (delta : Str)
  | textDelta (delta : Str) (contentIndex : Option Nat)
  | annotationAdded (ann : Option Ann) (contentIndex : Option Nat)
deriving DecidableEq

/-- The metadata emitted as the first SSE frame. -/
structure Metadata where
  threadId : Str
  userMessageId : Str
  userId : Str
  agentEndpoint : Str
deriving DecidableEq

/-- One outbound SSE event of `generate_stream`, keyed like the JSON
frames (`metadata`, `content`, `reasoning`, `citations`,
`assistant_message_id`, `done`, `error`). -/
inductive OutEvent where
  | metadata (md : Metadata)
  | content (text : Str)
  | reasoning (text : Str)
  | citations (cs : List Citation)
  | assistantMessageId (id : Str)
  | done
  | error (msg : Str)
deriving DecidableEq

/-- The mutable state of one `generate_stream` invocation: the part
accumulators, citation collector state, content index tracker, the
inline-reasoning flag, and the outbound events emitted so far. -/
structure StState where
  fullResponseParts : List Str
  reasoningParts : List Str
  outputParts : List Str
  textBufferParts : List Str
  inlineReasoningParts : List Str
  citations : List Citation
  seenCitationUrls : List Str
  currentContentIndex : Nat
  inInlineReasoning : Bool
  events : List OutEvent

/-- The state at the top of `generate_stream`, before the first chunk. -/
def initState : StState :=
  ⟨[], [], [], [], [], [], [], 0, true, []⟩

/-- The citation insertion shared by both modes: record the citation
and its url only when the url is present, non-empty and unseen, and
assign `str(len + 1)` as its id. -/
def citInsert (p : List Citation × List Str) (cidx : Nat)
    (title : Option Str) (url : Option Str) : List Citation × List Str :=
  match url with
  | some u =>
    if u ≠ [] ∧ u ∉ p.2 then
      (p.1 ++ [⟨natStr (p.1.length + 1), cidx, title, u⟩], p.2 ++ [u])
    else p
  | none => p

/-- The annotation branch of the `generate_stream` loop (lines
547-562): take the chunk content index when present, else the tracked
one, and insert when the annotation dict is present. -/
def addCitationChunk (cits : List Citation) (seen : List Str) (cur : Nat)
    (ann : Option Ann) (cidx : Option Nat) : List Citation × List Str :=
  let contentIdx := cidx.getD cur
  match ann with
  | some a => citInsert (cits, seen) contentIdx a.title a.url
  | none => (cits, seen)

/-- One step of the non-streaming dedup loop of `send_message`
(lines 656-664). -/
def dedupStep (p : List Citation × List Str) (c : RawCitation) :
    List Citation × List Str :=
  citInsert p c.contentIndex c.title c.url

/-- The non-streaming citation dedup of `send_message`: fold the raw
citation list left to right, keeping the first occurrence of each url. -/
def dedupCitations (raws : List RawCitation) : List Citation :=
  (raws.foldl dedupStep ([], [])).1

/-- The body of the `for chunk in response` loop of `generate_stream`
(lines 486-562), one upstream chunk at a time. -/
def processChunk (s : StState) (c : Chunk) : StState :=
  match c with
  | .reasoningDelta d =>
    if d = [] then s
    else { s with reasoningParts := s.reasoningParts ++ [d] }
  | .textDelta d ci =>
    if d = [] then s
    else if containsSub closeTagL d then
      let p := splitMarker d
      let remaining := p.2.dropWhile (fun ch => ch = '\n')
      let s1 := { s with
        inlineReasoningParts := s.inlineReasoningParts ++ [p.1],
        inInlineReasoning := false }
      if remaining = [] then s1
      else { s1 with
        outputParts := s1.outputParts ++ [remaining],
        fullResponseParts := s1.fullResponseParts ++ [remaining],
        events := s1.events ++ [.content remaining] }
    else
      let s2 :=
        if s.inInlineReasoning then
          let bufParts := s.textBufferParts ++ [d]
          let buf := bufParts.flatten
          if realContentMatch buf then
            { s with
              inInlineReasoning := false,
              outputParts := s.outputParts ++ [buf],
              fullResponseParts := s.fullResponseParts ++ [buf],
              events := s.events ++ [.content buf],
              textBufferParts := [] }
          else if inlineReasoningMatch buf || startsW ("[".toList) buf then
            { s with
              textBufferParts := bufParts,
              inlineReasoningParts := s.inlineReasoningParts ++ [d] }
          else if buf.length > 500 then
            { s with
              inInlineReasoning := false,
              outputParts := s.outputParts ++ [buf],
              fullResponseParts := s.fullResponseParts ++ [buf],
              events := s.events ++ [.content buf],
              textBufferParts := [] }
          else { s with textBufferParts := bufParts }
        else
          { s with
            outputParts := s.outputParts ++ [d],
            fullResponseParts := s.fullResponseParts ++ [d],
            events := s.events ++ [.content d] }
      match ci with
      | some i => { s2 with currentContentIndex := i }
      | none => s2
  | .annotationAdded ann ci =>
    let r := addCitationChunk s.citations s.seenCitationUrls
      s.currentContentIndex ann ci
    { s with citations := r.1, seenCitationUrls := r.2 }

/-- The residual-buffer flush after the loop (lines 564-570): a
never-flushed pending buffer is emitted as content. -/
def flushResidual (s : StState) : StState :=
  let tb := s.textBufferParts.flatten
  if tb ≠ [] ∧ s.inInlineReasoning then
    { s with
      outputParts := s.outputParts ++ [tb],
      fullResponseParts := s.fullResponseParts ++ [tb],
      events := s.events ++ [.content tb] }
  else s

/-- `all_reasoning`: event reasoning followed by inline reasoning. -/
def allReasoning (s : StState) : Str :=
  s.reasoningParts.flatten ++ s.inlineReasoningParts.flatten

/-- `clean_reasoning`: stray think tags removed, then stripped. -/
def cleanReasoning (s : StState) : Str :=
  pyStrip (stripTags (allReasoning s))

/-- `f"<think>\n{r}\n</think>\n\n"`, the wrapping used both for the
reasoning event and for the persisted content. -/
def wrapThink (r : Str) : Str :=
  "<think>\n".toList ++ r ++ "\n</think>\n\n".toList

/-- `content_to_save` (lines 594-599): the output, prefixed by the
wrapped clean reasoning when reasoning was detected and survives
cleaning. -/
def contentToSave (s : StState) : Str :=
  let oc := s.outputParts.flatten
  if pyStrip (allReasoning s) ≠ [] then
    if cleanReasoning s ≠ [] then wrapThink (cleanReasoning s) ++ oc
    else oc
  else oc

/-- The reasoning frame emitted after streaming (lines 577-583). -/
def reasoningEvents (s : StState) : List OutEvent :=
  if pyStrip (allReasoning s) ≠ [] ∧ cleanReasoning s ≠ [] then
    [.reasoning (wrapThink (cleanReasoning s))]
  else []

/-- The citations frame (lines 585-588). -/
def citationEvents (s : StState) : List OutEvent :=
  if s.citations ≠ [] then [.citations s.citations] else []

/-- The persistence block (lines 590-610): save the assembled message
when the output is non-empty; a successful save yields the
assistant-message-id frame, a raising save is caught and yields
nothing. -/
def saveEvents (s : StState) (save : Str → Except Str Str) : List OutEvent :=
  if s.outputParts.flatten ≠ [] then
    match save (contentToSave s) with
    | .ok mid => [.assistantMessageId mid]
    | .error _ => []
  else []

/-- All frames emitted after the loop on the success path, ending with
the done frame (lines 572-613). -/
def tailEvents (s : StState) (save : Str → Except Str Str) : List OutEvent :=
  reasoningEvents s ++ citationEvents s ++ saveEvents s save ++ [.done]

/-- The whole `generate_stream` generator (lines 464-617) as the list
of emitted SSE events.  `chunks` are the upstream events; `streamErr`
models an exception raised by the upstream iteration after those
chunks (the `except` at line 615 then emits one error frame and
stops); `save` models `chat_db.save_message`, returning the new id or
raising. -/
def generateStream (md : Metadata) (chunks : List Chunk)
    (streamErr : Option Str) (save : Str → Except Str Str) : List OutEvent :=
  match streamErr with
  | some msg =>
    .metadata md :: (chunks.foldl processChunk initState).events ++ [.error msg]
  | none =>
    let s := flushResidual (chunks.foldl processChunk initState)
    .metadata md :: s.events ++ tailEvents s save

/-- Terminal frames: done or error. -/
def isTerminalEv : OutEvent → Bool
  | .done => true
  | .error _ => true
  | _ => false

/-- Content frames. -/
def isContentEv : OutEvent → Bool
  | .content _ => true
  | _ => false

/-- Assistant-message-id frames. -/
def isAmidEv : OutEvent → Bool
  | .assistantMessageId _ => true
  | _ => false

/-- The texts of the content frames of an event list, in order. -/
def contentTexts (l : List OutEvent) : List Str :=
  l.filterMap (fun e => match e with | .content t => some t | _ => none)

/-- The texts of the reasoning frames of an event list, in order. -/
def reasoningTexts (l : List OutEvent) : List Str :=
  l.filterMap (fun e => match e with | .reasoning t => some t | _ => none)

/-- Sentence-terminal punctuation, the class `[.!?]`. -/
def isPunct (c : Char) : Bool := c = '.' || c = '!' || c = '?'

/-- `MIN_SENTENCE_LENGTH` of `backend/routers/tts.py`. -/
def MIN_SENTENCE_LENGTH : Nat := 10

/-- `re.search(r'[.!?]\s+', text)`: index of the first punctuation
character that is immediately followed by a whitespace character. -/
def findBoundary : Str → Option Nat
  | [] => none
  | [_] => none
  | c :: d :: rest =>
    if isPunct c && isWsCh d then some 0
    else
      match findBoundary (d :: rest) with
      | some i => some (i + 1)
      | none => none

/-- `has_complete_sentence` of `backend/routers/tts.py` (lines
110-118): the first boundary match must start at or after the minimum
sentence length. -/
def hasCompleteSentence (text : Str) : Bool :=
  match findBoundary text with
  | some i => decide (MIN_SENTENCE_LENGTH ≤ i)
  | none => false

/-- `extract_sentence` (lines 121-129): split at the first boundary,
stripping the sentence and the remainder; when no boundary exists the
whole text is the sentence. -/
def extractSentence (text : Str) : Str × Str :=
  match findBoundary text with
  | some i =>
    (pyStrip (text.take (i + 1)),
     pyStrip ((text.drop (i + 1)).dropWhile isWsCh))
  | none => (text, [])

/-- A boundary candidate at offset `j`, characterised directly on the
text: a punctuation character there, followed by a whitespace
character. -/
def boundaryAt (t : Str) (j : Nat) : Bool :=
  match t.drop j with
  | c :: d :: _ => isPunct c && isWsCh d
  | _ => false

/-- The sentence segmentation loop of the streaming TTS endpoint
(`tts.py` lines 234-263), fuel-driven: while the buffer holds a
complete sentence, extract it and speak it when non-blank; finally
speak the stripped residual buffer.  Each iteration consumes at least
one character of the buffer (the extracted boundary and its following
whitespace), so fuel equal to the buffer length never runs out: when
fuel reaches zero the buffer is empty and both branches agree.
Returns the texts handed to the TTS provider. -/
def ttsSentencesF : Nat → Str → List Str
  | 0, buffer => if pyStrip buffer ≠ [] then [pyStrip buffer] else []
  | fuel + 1, buffer =>
    if hasCompleteSentence buffer = true then
      (if pyStrip (extractSentence buffer).1 ≠ [] then [(extractSentence buffer).1]
       else []) ++ ttsSentencesF fuel (extractSentence buffer).2
    else if pyStrip buffer ≠ [] then [pyStrip buffer] else []

/-- The TTS sentence loop on a buffer, with adequate fuel. -/
def ttsSentences (buffer : Str) : List Str := ttsSentencesF buffer.length buffer



/-- Modelled from the spec: the Footnote data of §3 (the Footnote
Extractor itself is not under src/, only the spec describes it):
source marker id, sequential number from 1, trimmed content. -/
structure Footnote where
  id : Str
  number : Nat
  content : Str
deriving DecidableEq

/-- A single newline, the line separator. -/
def nlStr : Str := "\n".toList

/-- Modelled from the spec: split a buffer into its lines (definitions
start at the beginning of the buffer or after a newline). -/
def splitLines : Str → List Str
  | [] => [[]]
  | c :: rest =>
    match splitLines rest with
    | [] => [[]]
    | l :: ls => if c = '\n' then [] :: l :: ls else (c :: l) :: ls

/-- Modelled from the spec: recognise a footnote definition head
`[^id]:` at the start of a line, returning the marker id and the rest
of the line. -/
def defHead (line : Str) : Option (Str × Str) :=
  match line with
  | '[' :: '^' :: rest =>
    let idPart := rest.takeWhile (fun c => c ≠ ']')
    match rest.drop idPart.length with
    | ']' :: ':' :: tail => if idPart = [] then none else some (idPart, tail)
    | _ => none
  | _ => none

/-- Modelled from the spec: recognise an inline reference marker
`[^id]`, returning the id and the rest of the text. -/
def refHead (s : Str) : Option (Str × Str) :=
  match s with
  | '[' :: '^' :: rest =>
    let idPart := rest.takeWhile (fun c => c ≠ ']')
    match rest.drop idPart.length with
    | ']' :: tail => if idPart = [] then none else some (idPart, tail)
    | _ => none
  | _ => none

/-- Modelled from the spec: close the currently open definition,
trimming its accumulated (possibly multi-line) content. -/
def closeDef : Option (Str × List Str) → List (Str × Str)
  | none => []
  | some (i, acc) => [(i, pyStrip (List.intercalate nlStr acc.reverse))]

/-- Modelled from the spec: walk the lines in order; a line whose head
is a definition marker opens a definition that extends until the next
definition marker or the end of the buffer; all other lines belong to
the open definition, or to the main content when none is open.
Returns the definitions in discovery order and the main-content
lines. -/
def groupDefs : List Str → Option (Str × List Str) → List (Str × Str) × List Str
  | [], cur => (closeDef cur, [])
  | line :: rest, cur =>
    match defHead line with
    | some (i, tail) =>
      let r := groupDefs rest (some (i, [tail]))
      (closeDef cur ++ r.1, r.2)
    | none =>
      match cur with
      | some (i, acc) => groupDefs rest (some (i, line :: acc))
      | none =>
        let r := groupDefs rest none
        (r.1, line :: r.2)

/-- Modelled from the spec: the map from marker id to assigned number
(first matching entry). -/
def lookupNum : List Footnote → Str → Option Nat
  | [], _ => none
  | f :: fs, i => if f.id = i then some f.number else lookupNum fs i

/-- Modelled from the spec: the superscript-link markup pointing to an
anchor named by the assigned number. -/
def supLink (n : Nat) : Str :=
  "<sup><a href=\"#fn".toList ++ natStr n ++ "\">".toList ++ natStr n ++
    "</a></sup>".toList

/-- Modelled from the spec: remove every stray citation artifact, a
reference marker immediately followed by digits.  Fuel-driven scan;
each step consumes at least one character, so fuel equal to the input
length never runs out. -/
def removeArtifactsF : Nat → Str → Str
  | 0, s => s
  | _ + 1, [] => []
  | fuel + 1, s@(c :: rest) =>
    match refHead s with
    | some (_, tail) =>
      let digits := tail.takeWhile Char.isDigit
      if digits ≠ [] then removeArtifactsF fuel (tail.drop digits.length)
      else c :: removeArtifactsF fuel rest
    | none => c :: removeArtifactsF fuel rest

/-- Modelled from the spec: rewrite every inline reference marker whose
id is in the map to the superscript link of its number; leave unknown
markers untouched.  Fuel-driven scan, fuel equal to the input length
never runs out. -/
def rewriteRefsF (notes : List Footnote) : Nat → Str → Str
  | 0, s => s
  | _ + 1, [] => []
  | fuel + 1, s@(c :: rest) =>
    match refHead s with
    | some (i, tail) =>
      match lookupNum notes i with
      | some n => supLink n ++ rewriteRefsF notes fuel tail
      | none => ('[' :: '^' :: i ++ [']']) ++ rewriteRefsF notes fuel tail
    | none => c :: rewriteRefsF notes fuel rest

/-- Modelled from the spec: the Footnote Extractor (§4.4), which is not
part of src/.  Scan definitions in order of appearance, number them
sequentially from 1, remove the definition text from the main buffer,
remove stray citation artifacts, rewrite inline markers, and return
the rewritten main content with the footnote list. -/
def extractFootnotes (buffer : Str) : Str × List Footnote :=
  let r := groupDefs (splitLines buffer) none
  let notes := r.1.enum.map (fun p => Footnote.mk p.2.1 (p.1 + 1) p.2.2)
  let mainRaw := List.intercalate nlStr r.2
  let s4 := removeArtifactsF mainRaw.length mainRaw
  let s5 := rewriteRefsF notes s4.length s4
  (s5, notes)

/-- An HTTPException raised inside the `send_message` handler; its
Python `str()` is `"{status_code}: {detail}"`. -/
inductive HExc where
  | http (code : Nat) (detail : Str)
deriving DecidableEq

/-- `str(e)` for a raised HTTPException. -/
def excStr : HExc → Str
  | .http code detail => natStr code ++ ": ".toList ++ detail

/-- The request and collaborator environment of one `send_message`
call: the request fields, the authenticated user, the database ids the
gateway would mint, the configured token, and the upstream call
outcome (`client.responses.create`), with the streamed chunks or the
extracted non-streaming content and raw citations. -/
structure SendEnv where
  message : Str
  threadId : Option Str
  createThreadId : Str
  userId : Str
  userMessageId : Str
  hasDocuments : Bool
  databricksToken : Str
  agentEndpoint : Str
  useStreaming : Bool
  chunks : List Chunk
  streamErr : Option Str
  save : Str → Except Str Str
  upstreamOk : Except Str Unit
  nonStreamContent : Str
  nonStreamRaws : List RawCitation

/-- The value returned by `send_message`: a streaming SSE response, a
non-streaming success body, the error body produced by the outer
exception handler (lines 690-695), or the documents route. -/
inductive SendResult where
  | streaming (events : List OutEvent)
  | jsonSuccess (response : Str) (citations : List Citation)
      (threadId userMessageId : Str) (assistantMessageId : Option Str)
  | jsonError (response status : Str)
  | docChat (threadId userMessageId : Str)
deriving DecidableEq

/-- The body of `send_message` inside the outer `try` (lines 370-688):
empty message, missing token and upstream failure raise
HTTPExceptions; otherwise the streaming or non-streaming response is
assembled. -/
def sendMessageBody (env : SendEnv) : Except HExc SendResult :=
  let messageText := pyStrip env.message
  if messageText = [] then
    .error (.http 400 ("Message text is required".toList))
  else
    let threadId :=
      match env.threadId with
      | some t => t
      | none => env.createThreadId
    if env.hasDocuments then .ok (.docChat threadId env.userMessageId)
    else if env.databricksToken = [] then
      .error (.http 503
        ("DATABRICKS_TOKEN not configured. Please set DATABRICKS_TOKEN environment variable.".toList))
    else
      match env.upstreamOk with
      | .error e => .error (.http 500 ("Databricks API error: ".toList ++ e))
      | .ok _ =>
        if env.useStreaming then
          .ok (.streaming (generateStream
            ⟨threadId, env.userMessageId, env.userId, env.agentEndpoint⟩
            env.chunks env.streamErr env.save))
        else
          if env.nonStreamContent ≠ [] then
            match env.save env.nonStreamContent with
            | .ok amid => .ok (.jsonSuccess env.nonStreamContent
                (dedupCitations env.nonStreamRaws) threadId env.userMessageId
                (some amid))
            | .error e => .error (.http 500
                ("Error processing response: ".toList ++ e))
          else .ok (.jsonSuccess env.nonStreamContent
            (dedupCitations env.nonStreamRaws) threadId env.userMessageId none)

/-- `send_message` with its outer exception handler: any exception
raised in the body is converted to a normal JSON body with response
`"Error: {str(e)}"` and status `"error"`. -/
def sendMessage (env : SendEnv) : SendResult :=
  match sendMessageBody env with
  | .ok r => r
  | .error e => .jsonError ("Error: ".toList ++ excStr e) ("error".toList)


/-- Error frames. -/
def isErrorEv : OutEvent → Bool
  | .error _ => true
  | _ => false

/-- First-occurrence sequence of a url list: keep each url the first
time it appears, drop later repeats (order-preserving dedup). -/
def firstOccur (l : List Str) : List Str :=
  l.foldl (fun acc u => if u ∈ acc then acc else acc ++ [u]) []

/-- The urls of a streaming annotation event sequence that are present
and non-empty (the only ones the collector records). -/
def annTruthyUrls (evs : List (Option Ann × Option Nat)) : List Str :=
  evs.filterMap (fun e =>
    match e.1 with
    | some a =>
      match a.url with
      | some u => if u = [] then none else some u
      | none => none
    | none => none)

/-- The present, non-empty urls of a raw non-streaming citation list. -/
def rawTruthyUrls (raws : List RawCitation) : List Str :=
  raws.filterMap (fun c =>
    match c.url with
    | some u => if u = [] then none else some u
    | none => none)

/-- Feeding a sequence of annotation events to the streaming citation
collector of `generate_stream`, starting from the empty collector. -/
def collectRun (cur : Nat) (evs : List (Option Ann × Option Nat)) :
    List Citation × List Str :=
  evs.foldl (fun p e => addCitationChunk p.1 p.2 cur e.1 e.2) ([], [])

/-- One collector step on a decoded (content index, title, url) triple. -/
def citStep (p : List Citation × List Str)
    (t : Nat × Option Str × Option Str) : List Citation × List Str :=
  citInsert p t.1 t.2.1 t.2.2

/-- Decode a streaming annotation event into its collector triple. -/
def annTriple (cur : Nat) (e : Option Ann × Option Nat) :
    Nat × Option Str × Option Str :=
  (e.2.getD cur,
   match e.1 with | some a => a.title | none => none,
   match e.1 with | some a => a.url | none => none)

/-- Decode a raw non-streaming citation into its collector triple. -/
def rawTriple (c : RawCitation) : Nat × Option Str × Option Str :=
  (c.contentIndex, c.title, c.url)

/-- The present, non-empty urls of a triple list. -/
def tripUrls (ts : List (Nat × Option Str × Option Str)) : List Str :=
  ts.filterMap (fun t =>
    match t.2.2 with
    | some u => if u = [] then none else some u
    | none => none)

/-- The request metadata used by the concrete runs below. -/
def mdEx : Metadata := ⟨"t1".toList, "u1".toList, "user".toList, "ep".toList⟩

/-- The §8 end-to-end scenario input stream: four text deltas, no
explicit think marker (claim C3). -/
def c3chunks : List Chunk :=
  [.textDelta ("Establishing a working model".toList) none,
   .textDelta (" of the question. ".toList) none,
   .textDelta ("Here are the results: ".toList) none,
   .textDelta ("42.".toList) none]

/-- The concatenation of all four C3 deltas. -/
def c3full : Str :=
  "Establishing a working model of the question. Here are the results: 42.".toList

/-- The C3 scenario run, with a succeeding save. -/
def c3run : List OutEvent :=
  generateStream mdEx c3chunks none (fun _ => .ok ("m1".toList))

/-- A stream whose only event-tagged reasoning is a stray think tag
that cleans to nothing, followed by an answer (C5 counterexample). -/
def c5cxChunks : List Chunk :=
  [.reasoningDelta ("<think>".toList),
   .textDelta ("Here are facts.".toList) none]

/-- A stream with event-tagged reasoning `Step A. `, inline-detected
reasoning `Step B` and answer `Answer text.` (C5 witness). -/
def c5wChunks : List Chunk :=
  [.reasoningDelta ("Step A. ".toList),
   .textDelta ("Step B</think>Answer text.".toList) none]

/-- A classifier state whose pending buffer holds 500 signature-free
characters (C4 witness). -/
def c4state : StState :=
  { initState with textBufferParts := [List.replicate 500 'z'] }

/-- The abbreviation buffer of §8 property 3 (claim C8). -/
def drSmith : Str := "Dr. Smith will see you now.".toList

/-- The footnote round-trip input of §8 property 4 (claim C6). -/
def fnInput : Str := "See note.[^a]\n\n[^a]: Extra detail.".toList

/-- A baseline request environment for the C10 witnesses: blank
message, no documents, token configured, healthy upstream. -/
def envBase : SendEnv :=
  ⟨" ".toList, none, "t1".toList, "user".toList, "u1".toList, false,
   "tok".toList, "ep".toList, true, [], none,
   fun _ => .ok ("m1".toList), .ok (), [], []⟩

/-- The C10 missing-token environment: non-blank message, no token. -/
def env503 : SendEnv :=
  { envBase with
      message := "hi".toList,
      databricksToken := [] }

/-- The C10 failing-upstream environment: non-blank message, token
configured, upstream call raising `boom`. -/
def env500 : SendEnv :=
  { envBase with
      message := "hi".toList,
      upstreamOk := Except.error ("boom".toList) }

theorem dropWhile_length_le (p : Char → Bool) (l : Str) :
    (l.dropWhile p).length ≤ l.length := by
  induction l with
  | nil => simp [List.dropWhile]
  | cons c rest ih =>
    simp only [List.dropWhile]
    split
    · exact Nat.le_succ_of_le ih
    · exact Nat.le_refl _

theorem pyStrip_length_le (s : Str) : (pyStrip s).length ≤ s.length := by
  unfold pyStrip
  rw [List.length_reverse]
  calc ((s.dropWhile isWsCh).reverse.dropWhile isWsCh).length
      ≤ (s.dropWhile isWsCh).reverse.length := dropWhile_length_le _ _
    _ = (s.dropWhile isWsCh).length := List.length_reverse _
    _ ≤ s.length := dropWhile_length_le _ _

theorem findBoundary_drop {t : Str} {i : Nat} (h : findBoundary t = some i) :
    ∃ c d rest, t.drop i = c :: d :: rest ∧ isPunct c = true ∧ isWsCh d = true := by
  induction t generalizing i with
  | nil => simp [findBoundary] at h
  | cons c rest ih =>
    cases rest with
    | nil => simp [findBoundary] at h
    | cons d rest2 =>
      rw [findBoundary] at h
      by_cases hp : (isPunct c && isWsCh d) = true
      · rw [if_pos hp] at h
        injection h with h
        subst h
        rw [Bool.and_eq_true] at hp
        exact ⟨c, d, rest2, rfl, hp.1, hp.2⟩
      · rw [if_neg hp] at h
        cases hfb : findBoundary (d :: rest2) with
        | none => rw [hfb] at h; cases h
        | some j =>
          rw [hfb] at h
          injection h with h
          subst h
          obtain ⟨c2, d2, r2, hd, h1, h2⟩ := ih hfb
          refine ⟨c2, d2, r2, ?_, h1, h2⟩
          rw [List.drop_succ_cons]
          exact hd

theorem extract_shrinks {b : Str} (h : hasCompleteSentence b = true) :
    (extractSentence b).2.length < b.length := by
  unfold hasCompleteSentence at h
  cases hfb : findBoundary b with
  | none => rw [hfb] at h; cases h
  | some i =>
    obtain ⟨c, d, rest, hd, _, hw⟩ := findBoundary_drop hfb
    unfold extractSentence
    rw [hfb]
    simp only
    have h1 : b.drop (i + 1) = d :: rest := by
      have hdd : b.drop (i + 1) = (b.drop i).drop 1 := by
        rw [List.drop_drop]
      rw [hdd, hd]
      rfl
    rw [h1]
    have h2 : (d :: rest).dropWhile isWsCh = rest.dropWhile isWsCh := by
      simp [List.dropWhile, hw]
    rw [h2]
    have h3 : (pyStrip (rest.dropWhile isWsCh)).length ≤ rest.length :=
      le_trans (pyStrip_length_le _) (dropWhile_length_le _ _)
    have h4 : rest.length + 2 ≤ b.length := by
      have h5 := congrArg List.length hd
      simp [List.length_drop] at h5
      omega
    omega

theorem processChunk_events_shape (s : StState) (c : Chunk) :
    (processChunk s c).events = s.events ∨
    ∃ t, (processChunk s c).events = s.events ++ [OutEvent.content t] := by
  cases c with
  | reasoningDelta d =>
    left
    simp only [processChunk]
    split <;> rfl
  | textDelta d ci =>
    simp only [processChunk]
    cases ci <;> split_ifs <;>
      first
        | (left; rfl)
        | (right; exact ⟨_, rfl⟩)
  | annotationAdded ann ci => left; rfl

theorem processChunk_events_mono (s : StState) (c : Chunk) :
    ∃ newEv, (processChunk s c).events = s.events ++ newEv ∧
      newEv.all isContentEv = true := by
  rcases processChunk_events_shape s c with h | ⟨t, h⟩
  · exact ⟨[], by simp [h], rfl⟩
  · exact ⟨[.content t], h, by simp [isContentEv]⟩

theorem foldl_events_mono (l : List Chunk) : ∀ s : StState,
    ∃ newEv, (l.foldl processChunk s).events = s.events ++ newEv ∧
      newEv.all isContentEv = true := by
  induction l with
  | nil => exact fun s => ⟨[], by simp, rfl⟩
  | cons c rest ih =>
    intro s
    obtain ⟨e1, h1, h1c⟩ := processChunk_events_mono s c
    obtain ⟨e2, h2, h2c⟩ := ih (processChunk s c)
    refine ⟨e1 ++ e2, ?_, ?_⟩
    · simp only [List.foldl_cons, h2, h1, List.append_assoc]
    · simp [List.all_append, h1c, h2c]

theorem flushResidual_events_mono (s : StState) :
    ∃ newEv, (flushResidual s).events = s.events ++ newEv ∧
      newEv.all isContentEv = true := by
  simp only [flushResidual]
  split_ifs with h
  · exact ⟨[.content s.textBufferParts.flatten], rfl, by simp [isContentEv]⟩
  · exact ⟨[], by simp, rfl⟩

theorem reasoningEvents_shape (s : StState) :
    reasoningEvents s = [] ∨
    ∃ t, reasoningEvents s = [OutEvent.reasoning t] := by
  unfold reasoningEvents
  split
  · right; exact ⟨_, rfl⟩
  · left; rfl

theorem citationEvents_shape (s : StState) :
    citationEvents s = [] ∨
    ∃ cs, citationEvents s = [OutEvent.citations cs] := by
  unfold citationEvents
  split
  · right; exact ⟨_, rfl⟩
  · left; rfl

theorem saveEvents_shape (s : StState) (save : Str → Except Str Str) :
    saveEvents s save = [] ∨
    ∃ mid, saveEvents s save = [OutEvent.assistantMessageId mid] := by
  unfold saveEvents
  split
  · split
    · right; exact ⟨_, rfl⟩
    · left; rfl
  · left; rfl

theorem content_not_terminal {e : OutEvent} (h : isContentEv e = true) :
    isTerminalEv e = false := by
  cases e <;> simp [isTerminalEv] <;> simp [isContentEv] at h

theorem content_not_amid {e : OutEvent} (h : isContentEv e = true) :
    isAmidEv e = false := by
  cases e <;> simp [isAmidEv] <;> simp [isContentEv] at h

theorem all_content_no_terminal {l : List OutEvent}
    (h : l.all isContentEv = true) : l.all (fun e => !isTerminalEv e) = true := by
  rw [List.all_eq_true] at h ⊢
  intro e he
  simp [content_not_terminal (h e he)]

theorem all_content_countP_amid {l : List OutEvent}
    (h : l.all isContentEv = true) : l.countP isAmidEv = 0 := by
  rw [List.all_eq_true] at h
  rw [List.countP_eq_zero]
  intro e he
  simp [content_not_amid (h e he)]

theorem isTerminalEv_metadata (md : Metadata) :
    isTerminalEv (.metadata md) = false := rfl

theorem isTerminalEv_content (t : Str) : isTerminalEv (.content t) = false := rfl

theorem isTerminalEv_reasoning (t : Str) :
    isTerminalEv (.reasoning t) = false := rfl

theorem isTerminalEv_citations (cs : List Citation) :
    isTerminalEv (.citations cs) = false := rfl

theorem isTerminalEv_amid (m : Str) :
    isTerminalEv (.assistantMessageId m) = false := rfl

theorem isTerminalEv_done : isTerminalEv .done = true := rfl

theorem isTerminalEv_error (m : Str) : isTerminalEv (.error m) = true := rfl

theorem isAmidEv_metadata (md : Metadata) : isAmidEv (.metadata md) = false := rfl

theorem isAmidEv_content (t : Str) : isAmidEv (.content t) = false := rfl

theorem isAmidEv_reasoning (t : Str) : isAmidEv (.reasoning t) = false := rfl

theorem isAmidEv_citations (cs : List Citation) :
    isAmidEv (.citations cs) = false := rfl

theorem isAmidEv_amid (m : Str) : isAmidEv (.assistantMessageId m) = true := rfl

theorem isAmidEv_done : isAmidEv .done = false := rfl

theorem isAmidEv_error (m : Str) : isAmidEv (.error m) = false := rfl

/-- C1: for every run of the streaming `send_message` orchestrator —
any upstream chunk sequence, any upstream iteration outcome, any save
outcome — the emitted SSE event sequence starts with a Metadata event,
ends with exactly one terminal event (done on success, error on
failure), has no event after that terminal event, and contains at most
one assistant_message_id event. -/
theorem c1_stream_event_invariants (md : Metadata) (chunks : List Chunk)
    (streamErr : Option Str) (save : Str → Except Str Str) :
    ∃ body last,
      generateStream md chunks streamErr save =
        OutEvent.metadata md :: body ++ [last] ∧
      isTerminalEv last = true ∧
      body.all (fun e => !isTerminalEv e) = true ∧
      (OutEvent.metadata md :: body ++ [last]).countP isAmidEv ≤ 1 := by
  cases streamErr with
  | some msg =>
    obtain ⟨e1, h1, h1c⟩ := foldl_events_mono chunks initState
    have h1n : (chunks.foldl processChunk initState).events = e1 := by
      simpa [initState] using h1
    refine ⟨e1, .error msg, ?_, rfl, all_content_no_terminal h1c, ?_⟩
    · simp [generateStream, h1n]
    · simp [List.countP_cons, List.countP_append,
        all_content_countP_amid h1c, isAmidEv_metadata, isAmidEv_error]
  | none =>
    obtain ⟨e1, h1, h1c⟩ := foldl_events_mono chunks initState
    obtain ⟨e2, h2, h2c⟩ :=
      flushResidual_events_mono (chunks.foldl processChunk initState)
    have hev : (flushResidual (chunks.foldl processChunk initState)).events =
        e1 ++ e2 := by
      rw [h2, h1]
      simp [initState]
    refine ⟨(e1 ++ e2) ++
      reasoningEvents (flushResidual (chunks.foldl processChunk initState)) ++
      citationEvents (flushResidual (chunks.foldl processChunk initState)) ++
      saveEvents (flushResidual (chunks.foldl processChunk initState)) save,
      .done, ?_, rfl, ?_, ?_⟩
    · simp only [generateStream, tailEvents]
      rw [hev]
      simp [List.append_assoc]
    · have h1t := all_content_no_terminal h1c
      have h2t := all_content_no_terminal h2c
      rcases reasoningEvents_shape
          (flushResidual (chunks.foldl processChunk initState)) with h | ⟨t, h⟩ <;>
        rcases citationEvents_shape
          (flushResidual (chunks.foldl processChunk initState)) with hc | ⟨cs, hc⟩ <;>
        rcases saveEvents_shape
          (flushResidual (chunks.foldl processChunk initState)) save with hs | ⟨mid, hs⟩ <;>
        simp [h, hc, hs, List.all_append, h1t, h2t, isTerminalEv_reasoning,
          isTerminalEv_citations, isTerminalEv_amid]
    · rcases reasoningEvents_shape
          (flushResidual (chunks.foldl processChunk initState)) with h | ⟨t, h⟩ <;>
        rcases citationEvents_shape
          (flushResidual (chunks.foldl processChunk initState)) with hc | ⟨cs, hc⟩ <;>
        rcases saveEvents_shape
          (flushResidual (chunks.foldl processChunk initState)) save with hs | ⟨mid, hs⟩ <;>
        simp [h, hc, hs, List.countP_cons, List.countP_append,
          all_content_countP_amid h1c, all_content_countP_amid h2c,
          isAmidEv_metadata, isAmidEv_reasoning, isAmidEv_citations,
          isAmidEv_amid, isAmidEv_done]

theorem isErrorEv_metadata (md : Metadata) : isErrorEv (.metadata md) = false := rfl

theorem isErrorEv_content (t : Str) : isErrorEv (.content t) = false := rfl

theorem isErrorEv_reasoning (t : Str) : isErrorEv (.reasoning t) = false := rfl

theorem isErrorEv_citations (cs : List Citation) :
    isErrorEv (.citations cs) = false := rfl

theorem isErrorEv_amid (m : Str) : isErrorEv (.assistantMessageId m) = false := rfl

theorem isErrorEv_done : isErrorEv .done = false := rfl

theorem saveEvents_fail (s : StState) (em : Str) :
    saveEvents s (fun _ => Except.error em) = [] := by
  unfold saveEvents
  split <;> rfl

theorem all_content_no_amid {l : List OutEvent}
    (h : l.all isContentEv = true) : l.all (fun e => !isAmidEv e) = true := by
  rw [List.all_eq_true] at h ⊢
  intro e he
  simp [content_not_amid (h e he)]

theorem filter_no_amid {l : List OutEvent}
    (h : l.all (fun e => !isAmidEv e) = true) :
    l.filter (fun e => !isAmidEv e) = l := by
  rw [List.all_eq_true] at h
  exact List.filter_eq_self.mpr h

theorem all_content_no_amid_error {l : List OutEvent}
    (h : l.all isContentEv = true) :
    l.all (fun e => !isAmidEv e && !isErrorEv e) = true := by
  rw [List.all_eq_true] at h ⊢
  intro e he
  have hc := h e he
  cases e <;> simp_all [isContentEv, isAmidEv, isErrorEv]

/-- C7: when the final persistence save raises after the answer has
been streamed, the orchestrator emits no error event and no
assistant_message_id event, every already-emitted event is exactly
what a run with any other save outcome emits (only the
assistant_message_id frame is missing), and the stream still
terminates with done. -/
theorem c7_persistence_failure_invisible (md : Metadata) (chunks : List Chunk)
    (em : Str) (save2 : Str → Except Str Str) :
    generateStream md chunks none (fun _ => Except.error em) =
      (generateStream md chunks none save2).filter (fun e => !isAmidEv e) ∧
    (generateStream md chunks none (fun _ => Except.error em)).all
      (fun e => !isAmidEv e && !isErrorEv e) = true ∧
    ∃ body, generateStream md chunks none (fun _ => Except.error em) =
      OutEvent.metadata md :: body ++ [OutEvent.done] := by
  obtain ⟨e1, h1, h1c⟩ := foldl_events_mono chunks initState
  obtain ⟨e2, h2, h2c⟩ :=
    flushResidual_events_mono (chunks.foldl processChunk initState)
  have hev : (flushResidual (chunks.foldl processChunk initState)).events =
      e1 ++ e2 := by
    rw [h2, h1]
    simp [initState]
  have hsf := saveEvents_fail (flushResidual (chunks.foldl processChunk initState)) em
  refine ⟨?_, ?_, ?_⟩
  · rcases reasoningEvents_shape
        (flushResidual (chunks.foldl processChunk initState)) with h | ⟨t, h⟩ <;>
      rcases citationEvents_shape
        (flushResidual (chunks.foldl processChunk initState)) with hc | ⟨cs, hc⟩ <;>
      rcases saveEvents_shape
        (flushResidual (chunks.foldl processChunk initState)) save2 with hs | ⟨mid, hs⟩ <;>
      simp [generateStream, tailEvents, hsf, h, hc, hs, hev,
        List.filter_append, List.filter_cons,
        isAmidEv_metadata, isAmidEv_reasoning, isAmidEv_citations,
        isAmidEv_amid, isAmidEv_done,
        filter_no_amid (all_content_no_amid h1c),
        filter_no_amid (all_content_no_amid h2c)]
  · rcases reasoningEvents_shape
        (flushResidual (chunks.foldl processChunk initState)) with h | ⟨t, h⟩ <;>
      rcases citationEvents_shape
        (flushResidual (chunks.foldl processChunk initState)) with hc | ⟨cs, hc⟩ <;>
      simp [generateStream, tailEvents, hsf, h, hc, hev, List.all_append,
        all_content_no_amid_error h1c, all_content_no_amid_error h2c,
        isAmidEv_metadata, isAmidEv_reasoning, isAmidEv_citations, isAmidEv_done,
        isErrorEv_metadata, isErrorEv_reasoning, isErrorEv_citations, isErrorEv_done]
  · refine ⟨(e1 ++ e2) ++
      reasoningEvents (flushResidual (chunks.foldl processChunk initState)) ++
      citationEvents (flushResidual (chunks.foldl processChunk initState)), ?_⟩
    simp only [generateStream, tailEvents, hsf]
    rw [hev]
    simp [List.append_assoc]

theorem citFold_inv (ts : List (Nat × Option Str × Option Str)) :
    ∀ p : List Citation × List Str,
    p.2 = p.1.map Citation.url →
    p.1.map Citation.id = (List.range p.1.length).map (fun i => natStr (i + 1)) →
    (ts.foldl citStep p).2 = (ts.foldl citStep p).1.map Citation.url ∧
    (ts.foldl citStep p).1.map Citation.id =
      (List.range (ts.foldl citStep p).1.length).map (fun i => natStr (i + 1)) ∧
    (ts.foldl citStep p).1.map Citation.url =
      (tripUrls ts).foldl (fun acc u => if u ∈ acc then acc else acc ++ [u])
        (p.1.map Citation.url) := by
  induction ts with
  | nil =>
    intro p h1 h2
    exact ⟨h1, h2, by simp [tripUrls]⟩
  | cons t ts ih =>
    intro p h1 h2
    rcases t with ⟨cidx, title, url⟩
    cases url with
    | none =>
      have hstep : citStep p (cidx, title, none) = p := by
        simp [citStep, citInsert]
      rw [List.foldl_cons, hstep]
      simpa [tripUrls, List.filterMap_cons] using ih p h1 h2
    | some u =>
      by_cases hu : u = []
      · have hstep : citStep p (cidx, title, some u) = p := by
          simp [citStep, citInsert, hu]
        rw [List.foldl_cons, hstep]
        simpa [tripUrls, List.filterMap_cons, hu] using ih p h1 h2
      · by_cases hmem : u ∈ p.2
        · have hstep : citStep p (cidx, title, some u) = p := by
            simp [citStep, citInsert, hu, hmem]
          rw [List.foldl_cons, hstep]
          have hres := ih p h1 h2
          refine ⟨hres.1, hres.2.1, ?_⟩
          rw [hres.2.2]
          have hmem2 : u ∈ p.1.map Citation.url := by rw [← h1]; exact hmem
          simp [tripUrls, List.filterMap_cons, hu, hmem2]
        · have hstep : citStep p (cidx, title, some u) =
              (p.1 ++ [⟨natStr (p.1.length + 1), cidx, title, u⟩], p.2 ++ [u]) := by
            simp [citStep, citInsert, hu, hmem]
          rw [List.foldl_cons, hstep]
          have hres := ih
            (p.1 ++ [⟨natStr (p.1.length + 1), cidx, title, u⟩], p.2 ++ [u])
            (by simp [h1])
            (by simp [List.map_append, h2, List.length_append, List.range_succ])
          refine ⟨hres.1, hres.2.1, ?_⟩
          rw [hres.2.2]
          have hmem2 : u ∉ p.1.map Citation.url := by rw [← h1]; exact hmem
          simp [tripUrls, List.filterMap_cons, hu, hmem2, List.map_append]

theorem collectRun_eq_citStep (cur : Nat)
    (evs : List (Option Ann × Option Nat)) :
    collectRun cur evs = (evs.map (annTriple cur)).foldl citStep ([], []) := by
  unfold collectRun
  rw [List.foldl_map]
  have hfun : (fun (p : List Citation × List Str) (e : Option Ann × Option Nat) =>
      addCitationChunk p.1 p.2 cur e.1 e.2) =
      (fun p e => citStep p (annTriple cur e)) := by
    funext p e
    rcases e with ⟨ann, cidx⟩
    cases ann <;> rfl
  rw [hfun]

theorem dedup_eq_citStep (raws : List RawCitation) :
    dedupCitations raws = ((raws.map rawTriple).foldl citStep ([], [])).1 := by
  unfold dedupCitations
  rw [List.foldl_map]
  have hfun : dedupStep = (fun p c => citStep p (rawTriple c)) := by
    funext p c
    rfl
  rw [hfun]

theorem annTruthyUrls_eq (cur : Nat) (evs : List (Option Ann × Option Nat)) :
    annTruthyUrls evs = tripUrls (evs.map (annTriple cur)) := by
  unfold annTruthyUrls tripUrls
  rw [List.filterMap_map]
  congr 1
  funext e
  rcases e with ⟨ann, cidx⟩
  cases ann <;> rfl

theorem rawTruthyUrls_eq (raws : List RawCitation) :
    rawTruthyUrls raws = tripUrls (raws.map rawTriple) := by
  unfold rawTruthyUrls tripUrls
  rw [List.filterMap_map]
  rfl

/-- C2: for every sequence of annotation events fed to the citation
collector, each distinct present non-empty url yields exactly one
citation — the collected url list is the first-occurrence dedup of the
incoming urls, so a repeated (title, url) pair adds nothing and the
id of each citation is the one assigned at the url's first occurrence
— and the ids are "1", "2", "3", ... in strict insertion order.  This
holds for the streaming collector of `generate_stream` and for the
non-streaming dedup loop of `send_message`. -/
theorem c2_citation_dedup_and_sequential_ids (cur : Nat)
    (evs : List (Option Ann × Option Nat)) (raws : List RawCitation) :
    ((collectRun cur evs).1.map Citation.url = firstOccur (annTruthyUrls evs) ∧
     (collectRun cur evs).1.map Citation.id =
       (List.range (collectRun cur evs).1.length).map (fun i => natStr (i + 1))) ∧
    ((dedupCitations raws).map Citation.url = firstOccur (rawTruthyUrls raws) ∧
     (dedupCitations raws).map Citation.id =
       (List.range (dedupCitations raws).length).map (fun i => natStr (i + 1))) := by
  constructor
  · have h := citFold_inv (evs.map (annTriple cur)) ([], []) rfl rfl
    rw [collectRun_eq_citStep cur evs]
    refine ⟨?_, h.2.1⟩
    rw [h.2.2, annTruthyUrls_eq cur evs]
    simp [firstOccur]
  · have h := citFold_inv (raws.map rawTriple) ([], []) rfl rfl
    rw [dedup_eq_citStep raws]
    refine ⟨?_, h.2.1⟩
    rw [h.2.2, rawTruthyUrls_eq raws]
    simp [firstOccur]

/-- C9: an annotation event whose url field is missing or empty records
nothing in the citation collector — the state (citation batch and seen
set) is unchanged, so no citation appears in the final batch and no
sequential id is consumed; the embedding is total, so no error is
raised.  Covered for the streaming collector step of `generate_stream`
(including an absent annotation dict) and for the non-streaming dedup
step of `send_message`. -/
theorem c9_malformed_annotation_dropped (cits : List Citation)
    (seen : List Str) (cur : Nat) (cidx : Option Nat) (ann : Ann)
    (h : ann.url = none ∨ ann.url = some []) (raw : RawCitation)
    (h2 : raw.url = none ∨ raw.url = some []) :
    addCitationChunk cits seen cur (some ann) cidx = (cits, seen) ∧
    addCitationChunk cits seen cur none cidx = (cits, seen) ∧
    dedupStep (cits, seen) raw = (cits, seen) := by
  refine ⟨?_, rfl, ?_⟩
  · rcases h with h | h <;> simp [addCitationChunk, citInsert, h]
  · rcases h2 with h | h <;> simp [dedupStep, citInsert, h]

/-- Witness for C9, at a concrete title-only annotation, an absent
annotation dict, and a concrete empty-url raw citation. -/
theorem c9_malformed_annotation_dropped_witness :
    addCitationChunk [] [] 0 (some ⟨some ("T".toList), none⟩) none = ([], []) ∧
    addCitationChunk [] [] 0 none none = ([], []) ∧
    dedupStep ([], []) ⟨0, some ("T".toList), some []⟩ = ([], []) :=
  c9_malformed_annotation_dropped [] [] 0 none ⟨some ("T".toList), none⟩
    (Or.inl rfl) ⟨0, some ("T".toList), some []⟩ (Or.inr rfl)

/-- C4: when the classifier is in reasoning mode and appends a delta
with no think marker, and the grown pending buffer matches no
real-content signature, no reasoning signature, does not start with a
bracket, and exceeds 500 characters, then the whole buffer — every
buffered character plus the new delta, nothing lost — is emitted as
one content event and the classifier leaves reasoning mode with an
empty buffer. -/
theorem c4_fail_open_flush (s : StState) (d : Str) (ci : Option Nat)
    (hmode : s.inInlineReasoning = true) (hne : d ≠ [])
    (hnm : containsSub closeTagL d = false)
    (hrc : realContentMatch ((s.textBufferParts ++ [d]).flatten) = false)
    (hir : inlineReasoningMatch ((s.textBufferParts ++ [d]).flatten) = false)
    (hbr : startsW ("[".toList) ((s.textBufferParts ++ [d]).flatten) = false)
    (hlen : ((s.textBufferParts ++ [d]).flatten).length > 500) :
    (processChunk s (.textDelta d ci)).events =
      s.events ++ [.content ((s.textBufferParts ++ [d]).flatten)] ∧
    (processChunk s (.textDelta d ci)).inInlineReasoning = false ∧
    (processChunk s (.textDelta d ci)).textBufferParts = [] ∧
    (s.textBufferParts ++ [d]).flatten = s.textBufferParts.flatten ++ d := by
  have hflat : (s.textBufferParts ++ [d]).flatten =
      s.textBufferParts.flatten ++ d := by simp
  refine ⟨?_, ?_, ?_, hflat⟩ <;>
  · simp only [processChunk]
    have hrc2 : realContentMatch (s.textBufferParts.flatten ++ d) = false := by
      simpa using hrc
    have hir2 : inlineReasoningMatch (s.textBufferParts.flatten ++ d) = false := by
      simpa using hir
    have hbr2 : startsW ['['] (s.textBufferParts.flatten ++ d) = false := by
      simpa using hbr
    have hlen2 : 500 < (List.map List.length s.textBufferParts).sum +
        List.length d := by
      simpa using hlen
    cases ci <;> simp [hne, hnm, hmode, hrc2, hir2, hbr2, hlen2]

/-- Witness for C4: a state buffering 500 signature-free characters
receives one more character; the 501-character buffer is flushed whole
as a single content event. -/
theorem c4_fail_open_flush_witness :
    (processChunk c4state (.textDelta ("z".toList) none)).events =
      c4state.events ++
        [.content ((c4state.textBufferParts ++ ["z".toList]).flatten)] ∧
    (processChunk c4state (.textDelta ("z".toList) none)).inInlineReasoning =
      false ∧
    (processChunk c4state (.textDelta ("z".toList) none)).textBufferParts = [] ∧
    (c4state.textBufferParts ++ ["z".toList]).flatten =
      c4state.textBufferParts.flatten ++ "z".toList :=
  c4_fail_open_flush c4state ("z".toList) none rfl (by decide) (by decide)
    (by decide) (by decide) (by decide) (by decide)

/-- C5 (amended): for every completed stream in which reasoning was
detected and the cleaned reasoning is non-empty, and the answer text
is non-empty, the content passed to the persistence save call equals
`<think>\n`, then the cleaned reasoning (event-tagged reasoning
concatenated before inline-detected reasoning, stray think tags
removed, whitespace trimmed), then `\n</think>\n\n`, then the answer
text.  (`contentToSave` is the string `generate_stream` hands to
`chat_db.save_message`.) -/
theorem c5_persisted_content_amended (chunks : List Chunk)
    (h1 : pyStrip (allReasoning (flushResidual
      (chunks.foldl processChunk initState))) ≠ [])
    (h2 : pyStrip (stripTags
      ((flushResidual (chunks.foldl processChunk initState)).reasoningParts.flatten ++
       (flushResidual (chunks.foldl processChunk initState)).inlineReasoningParts.flatten)) ≠ [])
    (h3 : (flushResidual (chunks.foldl processChunk initState)).outputParts.flatten ≠ []) :
    contentToSave (flushResidual (chunks.foldl processChunk initState)) =
      "<think>\n".toList ++
      pyStrip (stripTags
        ((flushResidual (chunks.foldl processChunk initState)).reasoningParts.flatten ++
         (flushResidual (chunks.foldl processChunk initState)).inlineReasoningParts.flatten)) ++
      "\n</think>\n\n".toList ++
      (flushResidual (chunks.foldl processChunk initState)).outputParts.flatten := by
  have h1n : pyStrip
      ((flushResidual (chunks.foldl processChunk initState)).reasoningParts.flatten ++
       (flushResidual (chunks.foldl processChunk initState)).inlineReasoningParts.flatten) ≠ [] := by
    simpa [allReasoning] using h1
  simp [contentToSave, h1n, h2, wrapThink, cleanReasoning, allReasoning,
    List.append_assoc]

/-- Witness for amended C5: event reasoning `Step A. `, inline
reasoning `Step B`, answer `Answer text.` — the saved content holds
both reasoning channels inside one think block before the answer. -/
theorem c5_persisted_content_amended_witness :
    contentToSave (flushResidual (c5wChunks.foldl processChunk initState)) =
      "<think>\nStep A. Step B\n</think>\n\nAnswer text.".toList :=
  (c5_persisted_content_amended c5wChunks (by decide) (by decide)
    (by decide)).trans (by decide)

/-- Counterexample to C5 as stated: a stream whose event-tagged
reasoning channel is non-empty (so reasoning was detected) but
consists only of a stray `<think>` tag.  The cleaning removes the tag
entirely, `generate_stream` saves the bare answer, and the claimed
`<think>...</think>` concatenation does not match what is saved. -/
theorem c5_counterexample :
    (flushResidual (c5cxChunks.foldl processChunk initState)).reasoningParts ≠ [] ∧
    (flushResidual (c5cxChunks.foldl processChunk initState)).outputParts.flatten =
      "Here are facts.".toList ∧
    contentToSave (flushResidual (c5cxChunks.foldl processChunk initState)) =
      "Here are facts.".toList ∧
    contentToSave (flushResidual (c5cxChunks.foldl processChunk initState)) ≠
      "<think>\n".toList ++
      pyStrip (stripTags (allReasoning (flushResidual
        (c5cxChunks.foldl processChunk initState)))) ++
      "\n</think>\n\n".toList ++
      (flushResidual (c5cxChunks.foldl processChunk initState)).outputParts.flatten := by
  decide

/-- Counterexample to C3 as stated: on the §8 scenario input every
delta accumulates in the pending buffer (each grown buffer contains
the signature `Establishing a working model`, and the real-content
patterns are anchored at the buffer start without `re.MULTILINE`, so
`Here are` never matches mid-buffer).  The run emits exactly one
content event carrying the whole concatenation — not the two events
`Here are the results: ` and `42.` — and the reasoning event wraps
that same whole concatenation, not just the narration sentence. -/
theorem c3_counterexample :
    contentTexts c3run = [c3full] ∧
    ¬ ("Here are the results: ".toList ∈ contentTexts c3run) ∧
    reasoningTexts c3run = [wrapThink c3full] ∧
    ¬ (wrapThink ("Establishing a working model of the question.".toList) ∈
        reasoningTexts c3run) := by
  decide

/-- C3 (amended): on the §8 scenario input stream the orchestrator
emits Metadata, then a single content event carrying the concatenation
of all four deltas (flushed from the pending buffer at stream end),
then a reasoning event wrapping that same concatenated text in
`<think>...</think>` (every delta was also accumulated as inline
reasoning), then the assistant message id of the save, then done. -/
theorem c3_amended :
    c3run = [.metadata mdEx, .content c3full, .reasoning (wrapThink c3full),
      .assistantMessageId ("m1".toList), .done] := by
  decide

theorem findBoundary_first {t : Str} {i : Nat} (h : findBoundary t = some i) :
    boundaryAt t i = true ∧ ∀ j, j < i → boundaryAt t j = false := by
  induction t generalizing i with
  | nil => simp [findBoundary] at h
  | cons c rest ih =>
    cases rest with
    | nil => simp [findBoundary] at h
    | cons d rest2 =>
      rw [findBoundary] at h
      by_cases hp : (isPunct c && isWsCh d) = true
      · rw [if_pos hp] at h
        injection h with h
        subst h
        refine ⟨by simpa [boundaryAt] using hp, ?_⟩
        intro j hj
        omega
      · rw [if_neg hp] at h
        cases hfb : findBoundary (d :: rest2) with
        | none => rw [hfb] at h; cases h
        | some k =>
          rw [hfb] at h
          injection h with h
          subst h
          obtain ⟨hb, hfirst⟩ := ih hfb
          refine ⟨by simpa [boundaryAt, List.drop_succ_cons] using hb, ?_⟩
          intro j hj
          cases j with
          | zero =>
            have hfalse : (isPunct c && isWsCh d) = false := by
              revert hp
              cases (isPunct c && isWsCh d) <;> simp
            simpa [boundaryAt] using hfalse
          | succ j2 =>
            have := hfirst j2 (by omega)
            simpa [boundaryAt, List.drop_succ_cons] using this

/-- C8 (amended): in TTS mode a boundary is accepted only when the
first boundary candidate in the buffer sits at or after offset 10 —
so whenever the detector accepts, the accepted boundary (the earliest
punctuation-plus-whitespace position) is at offset at least 10.  On
the buffer `Dr. Smith will see you now.` the detector accepts no
split at all: the abbreviation period at offset 2 is the first
candidate and is below the minimum, and the final period is not
followed by whitespace; the sentence ending at the final period is
spoken whole by the end-of-stream residual flush of the TTS loop. -/
theorem c8_tts_min_offset_amended :
    (∀ t : Str, hasCompleteSentence t = true →
      ∃ i, MIN_SENTENCE_LENGTH ≤ i ∧ boundaryAt t i = true ∧
        ∀ j, j < i → boundaryAt t j = false) ∧
    hasCompleteSentence drSmith = false ∧
    ttsSentences drSmith = [drSmith] := by
  refine ⟨?_, by decide, by decide⟩
  intro t ht
  unfold hasCompleteSentence at ht
  cases hfb : findBoundary t with
  | none => rw [hfb] at ht; cases ht
  | some i =>
    rw [hfb] at ht
    obtain ⟨hb, hfirst⟩ := findBoundary_first hfb
    exact ⟨i, by simpa using ht, hb, hfirst⟩

/-- Witness for the general clause of amended C8: on
`Hello world. Next` the detector accepts, and the accepted first
boundary is at offset 11, at or past the minimum. -/
theorem c8_tts_min_offset_amended_witness :
    ∃ i, MIN_SENTENCE_LENGTH ≤ i ∧
      boundaryAt ("Hello world. Next".toList) i = true ∧
      ∀ j, j < i → boundaryAt ("Hello world. Next".toList) j = false :=
  c8_tts_min_offset_amended.1 ("Hello world. Next".toList) (by decide)

/-- Counterexample to C8 as stated: the detector does not split
`Dr. Smith will see you now.` at the final period — it accepts no
boundary in this buffer at all, even with a trailing space, because
`re.search` returns the first candidate (the abbreviation period at
offset 2) and that candidate is below the minimum offset. -/
theorem c8_counterexample :
    hasCompleteSentence drSmith = false ∧
    hasCompleteSentence (drSmith ++ [' ']) = false ∧
    findBoundary drSmith = some 2 := by
  decide

theorem enum_number_map (l : List (Str × Str)) :
    ((l.enum.map (fun p => Footnote.mk p.2.1 (p.1 + 1) p.2.2)).map
        Footnote.number) =
      (List.range (l.enum.map
        (fun p => Footnote.mk p.2.1 (p.1 + 1) p.2.2)).length).map
        (fun i => i + 1) := by
  rw [List.map_map, List.length_map, List.enum_length]
  have h1 : (Footnote.number ∘ fun p : Nat × Str × Str =>
      Footnote.mk p.2.1 (p.1 + 1) p.2.2) = (fun p => p.1 + 1) := rfl
  rw [h1]
  have h2 : (fun p : Nat × Str × Str => p.1 + 1) =
      ((fun i => i + 1) ∘ Prod.fst) := rfl
  rw [h2, ← List.map_map, List.enum_map_fst]

/-- C6: on the round-trip input `See note.[^a]\n\n[^a]: Extra detail.`
the extractor returns main content `See note.` followed by the
superscript link for number 1 (and the line break left by removing
the definition block), and the footnote list `[{id: a, number: 1,
content: Extra detail.}]`; moreover for every buffer the footnote
numbers are assigned sequentially from 1 in order of definition
discovery. -/
theorem c6_footnote_roundtrip :
    extractFootnotes fnInput =
      ("See note.".toList ++ supLink 1 ++ "\n".toList,
       [⟨"a".toList, 1, "Extra detail.".toList⟩]) ∧
    ∀ buffer : Str, (extractFootnotes buffer).2.map Footnote.number =
      (List.range (extractFootnotes buffer).2.length).map (fun i => i + 1) := by
  constructor
  · decide
  · intro buffer
    have hnotes : (extractFootnotes buffer).2 =
        (groupDefs (splitLines buffer) none).1.enum.map
          (fun p => Footnote.mk p.2.1 (p.1 + 1) p.2.2) := rfl
    rw [hnotes]
    exact enum_number_map _

/-- C10: the HTTPExceptions raised inside the `send_message` handler —
empty or whitespace-only message (400), missing DATABRICKS_TOKEN
(503), failing upstream call before streaming starts (500) — never
propagate as HTTP error statuses: the outer handler catches each and
returns a normal JSON body with status `error` and a response string
beginning `Error: ` followed by `str(e)`. -/
theorem c10_http_errors_become_json (env : SendEnv) :
    (pyStrip env.message = [] →
      sendMessage env = .jsonError
        ("Error: 400: Message text is required".toList) ("error".toList)) ∧
    (pyStrip env.message ≠ [] → env.hasDocuments = false →
      env.databricksToken = [] →
      sendMessage env = .jsonError
        ("Error: 503: DATABRICKS_TOKEN not configured. Please set DATABRICKS_TOKEN environment variable.".toList)
        ("error".toList)) ∧
    (∀ e, pyStrip env.message ≠ [] → env.hasDocuments = false →
      env.databricksToken ≠ [] → env.upstreamOk = Except.error e →
      sendMessage env = .jsonError
        ("Error: 500: Databricks API error: ".toList ++ e) ("error".toList)) := by
  refine ⟨?_, ?_, ?_⟩
  · intro h1
    simp [sendMessage, sendMessageBody, h1, excStr]
    decide
  · intro h1 h2 h3
    simp [sendMessage, sendMessageBody, h1, h2, h3, excStr]
    decide
  · intro e h1 h2 h3 h4
    have h500 : natStr 500 = "500".toList := by decide
    simp [sendMessage, sendMessageBody, h1, h2, h3, h4, excStr, h500]

/-- Witness for C10: the three scenarios at concrete environments — a
whitespace-only message, a missing token, and an upstream call that
raises `boom`. -/
theorem c10_http_errors_become_json_witness :
    sendMessage envBase = .jsonError
      ("Error: 400: Message text is required".toList) ("error".toList) ∧
    sendMessage env503 = .jsonError
      ("Error: 503: DATABRICKS_TOKEN not configured. Please set DATABRICKS_TOKEN environment variable.".toList)
      ("error".toList) ∧
    sendMessage env500 = .jsonError
      ("Error: 500: Databricks API error: boom".toList) ("error".toList) := by
  refine ⟨(c10_http_errors_become_json envBase).1 (by decide), ?_, ?_⟩
  · exact (c10_http_errors_become_json env503).2.1 (by decide) rfl rfl
  · exact ((c10_http_errors_become_json env500).2.2 ("boom".toList)
      (by decide) rfl (by decide) rfl).trans (by decide)
